import Mathlib

/-!
Verification of the S3 upload-and-delete application core.

Shallow embedding of `src/app.py` (class `S3UploadAndDeleteApp` and its
helpers).  Remote-store behaviour (listing, upload, delete) is abstracted
as oracles; everything else is translated directly from the Python source:

* `pyRange`, `pySlice` — Python `range(start, stop, step)` (positive step)
  and list slicing `l[i:j]` (`0 ≤ i ≤ j`).
* `delete_batches` — the batch partition performed by the selection-mode
  delete loop in `_execute_delete.delete_thread` (app.py lines 890-897).
* further definitions follow for the pagination dialog, the sweep-mode
  delete, the upload pipeline, the directory walker and the key builder.
-/

namespace S3App

/-- Constants from `AppConstants` (app.py lines 41-42). -/
def MAX_KEYS_PER_PAGE : Nat := 25

/-- Constant `AppConstants.DELETE_BATCH_SIZE` (app.py line 42). -/
def DELETE_BATCH_SIZE : Nat := 100

/-- Python `range(start, stop, step)` with a positive step: the indices
`start, start+step, …` strictly below `stop`. -/
def pyRange (start stop step : Nat) : List Nat :=
  if start < stop ∧ 0 < step then start :: pyRange (start + step) stop step else []
termination_by stop - start
decreasing_by omega

/-- Python slice `l[i:j]` for `0 ≤ i ≤ j` (out-of-range bounds clamp,
exactly as `take`/`drop` clamp). -/
def pySlice (l : List α) (i j : Nat) : List α :=
  (l.drop i).take (j - i)

/-- The sequence of key batches handed to `delete_objects` by the
selection-mode delete loop (app.py lines 890-892):
`for i in range(0, total, DELETE_BATCH_SIZE): batch = selected_keys[i:i + DELETE_BATCH_SIZE]`. -/
def delete_batches (keys : List String) : List (List String) :=
  (pyRange 0 keys.length DELETE_BATCH_SIZE).map
    (fun i => pySlice keys i (i + DELETE_BATCH_SIZE))

/-! ## Lemmas about `pyRange`-driven slicing -/

theorem ceil_div_sub_step (d B : Nat) (hB : 0 < B) (hd : 0 < d) :
    (d + B - 1) / B = (d - B + B - 1) / B + 1 := by
  have e1 : d + B - 1 = (d - 1) + B := by omega
  rw [e1, Nat.add_div_right _ hB]
  rcases Nat.le_total d B with hle | hge
  · have e2 : d - B + B - 1 = B - 1 := by omega
    rw [e2, Nat.div_eq_of_lt (by omega), Nat.div_eq_of_lt (by omega)]
  · have e2 : d - B + B - 1 = d - 1 := by omega
    rw [e2]

theorem pyRange_length (start stop step : Nat) (h : 0 < step) :
    (pyRange start stop step).length = (stop - start + step - 1) / step := by
  induction start, stop, step using pyRange.induct with
  | case1 start stop step hc ih =>
    rw [pyRange, if_pos hc, List.length_cons, ih h]
    have e : stop - (start + step) = stop - start - step := by omega
    rw [e, (ceil_div_sub_step (stop - start) step h (by omega))]
  | case2 start stop step hc =>
    rw [pyRange, if_neg hc]
    have e : stop - start = 0 := by omega
    simp [e, Nat.div_eq_of_lt (by omega : step - 1 < step)]

theorem pyRange_map_take_flatten (B : Nat) (hB : 0 < B) (keys : List α) (s : Nat) :
    ((pyRange s keys.length B).map (fun i => (keys.drop i).take B)).flatten
      = keys.drop s := by
  rw [pyRange]
  by_cases hc : s < keys.length ∧ 0 < B
  · rw [if_pos hc, List.map_cons, List.flatten_cons,
      pyRange_map_take_flatten B hB keys (s + B)]
    have e : keys.drop (s + B) = (keys.drop s).drop B := by
      rw [List.drop_drop]
    rw [e, List.take_append_drop]
  · rw [if_neg hc, List.map_nil, List.flatten_nil]
    have hle : keys.length ≤ s := by omega
    exact (List.drop_eq_nil_of_le hle).symm
termination_by keys.length - s
decreasing_by omega

/-- C1: Selection-mode batch delete partitions the input keys into
batches: for `N` selected keys the loop issues exactly
`⌈N / DELETE_BATCH_SIZE⌉` delete calls, each call carries at most
`DELETE_BATCH_SIZE` keys, and the concatenation of the keys passed across
all calls is exactly the input key list (hence equal as a multiset). -/
theorem selection_delete_partitions_keys (keys : List String) :
    (delete_batches keys).length
        = (keys.length + DELETE_BATCH_SIZE - 1) / DELETE_BATCH_SIZE
      ∧ (∀ b ∈ delete_batches keys, b.length ≤ DELETE_BATCH_SIZE)
      ∧ (delete_batches keys).flatten = keys := by
  have hB : 0 < DELETE_BATCH_SIZE := by decide
  refine ⟨?_, ?_, ?_⟩
  · rw [delete_batches, List.length_map, pyRange_length _ _ _ hB, Nat.sub_zero]
  · intro b hb
    rw [delete_batches] at hb
    rcases List.mem_map.mp hb with ⟨i, _, rfl⟩
    rw [pySlice]
    exact le_trans (List.length_take_le _ _) (by omega)
  · rw [delete_batches]
    have e : (fun i => pySlice keys i (i + DELETE_BATCH_SIZE))
        = (fun i => (keys.drop i).take DELETE_BATCH_SIZE) := by
      funext i
      rw [pySlice, Nat.add_sub_cancel_left]
    rw [e, pyRange_map_take_flatten _ hB keys 0, List.drop_zero]

/-! ## Sweep-mode delete (`_delete_all_with_prefix`, app.py lines 908-938)

The remote listing is abstracted as an oracle `f : Nat → List String × Option String`
giving the response (keys, next continuation token) of the n-th listing call
made by the sweep; the opaque token value only matters through its presence,
which is what the loop tests (`if not continuation_token: break`). -/

/-- One run of the `while True` loop of `_delete_all_with_prefix`, with fuel
bounding the number of listing calls.  Returns `none` when fuel runs out
before the loop exits, otherwise `some (listed, deleted)` where `listed` is
the sequence of key lists returned by the listing calls made, in order, and
`deleted` is the sequence of key lists passed to `delete_objects`, in order.
The loop body: list a page; `if not objects: break`; delete the page;
`if not continuation_token: break`. -/
def sweep_trace (f : Nat → List String × Option String) :
    Nat → Nat → Option (List (List String) × List (List String))
  | 0, _ => none
  | fuel + 1, i =>
    let objects := (f i).1
    if objects = [] then
      some ([objects], [])
    else
      match (f i).2 with
      | none => some ([objects], [objects])
      | some _ =>
        match sweep_trace f fuel (i + 1) with
        | none => none
        | some (listed, deleted) => some (objects :: listed, objects :: deleted)

theorem sweep_trace_spec (f : Nat → List String × Option String) :
    ∀ (m i : Nat), (f (i + m)).1 = [] →
      ∃ listed deleted, sweep_trace f (m + 1) i = some (listed, deleted)
        ∧ listed.length ≤ m + 1
        ∧ deleted.flatten = listed.flatten := by
  intro m
  induction m with
  | zero =>
    intro i h
    rw [Nat.add_zero] at h
    refine ⟨[(f i).1], [], ?_, by simp, by simp [h]⟩
    rw [sweep_trace, if_pos h]
  | succ m ih =>
    intro i h
    by_cases hempty : (f i).1 = []
    · refine ⟨[(f i).1], [], ?_, by simp, by simp [hempty]⟩
      rw [sweep_trace, if_pos hempty]
    · cases htok : (f i).2 with
      | none =>
        refine ⟨[(f i).1], [(f i).1], ?_, by simp, by simp⟩
        rw [sweep_trace, if_neg hempty]
        simp [htok]
      | some t =>
        obtain ⟨listed, deleted, hrun, hlen, hflat⟩ :=
          ih (i + 1) (by have : i + 1 + m = i + (m + 1) := by omega
                         rw [this]; exact h)
        refine ⟨(f i).1 :: listed, (f i).1 :: deleted, ?_, ?_, ?_⟩
        · rw [sweep_trace, if_neg hempty]
          simp [htok, hrun]
        · simp only [List.length_cons]
          omega
        · simp [hflat]

/-- C2: Prefix-sweep deletion terminates after finitely many listing
calls provided the listing eventually returns an empty key list (here: the
n-th listing response is empty, so fuel `n + 1` suffices and at most `n + 1`
listing calls are made), and every key ever returned by a listing call
during the sweep is passed to a delete call exactly once (the concatenation
of the delete-call key lists equals the concatenation of the listing-call
key lists). -/
theorem sweep_terminates_and_deletes_listed_keys_once
    (f : Nat → List String × Option String) (n : Nat) (h : (f n).1 = []) :
    ∃ listed deleted, sweep_trace f (n + 1) 0 = some (listed, deleted)
      ∧ listed.length ≤ n + 1
      ∧ deleted.flatten = listed.flatten :=
  sweep_trace_spec f n 0 (by simpa using h)

/-- Witness for C2 on a concrete two-page listing oracle. -/
theorem sweep_terminates_witness :
    ∃ listed deleted,
      sweep_trace (fun i => if i = 0 then (["a", "b"], some "t") else ([], none)) 2 0
          = some (listed, deleted)
        ∧ listed.length ≤ 2
        ∧ deleted.flatten = listed.flatten :=
  sweep_terminates_and_deletes_listed_keys_once
    (fun i => if i = 0 then (["a", "b"], some "t") else ([], none)) 1 (by decide)

/-- C10: The sweep loop also stops when a listing call returns a
non-empty key list but no continuation token: that page is deleted and no
further listing call is issued (the trace is independent of any extra fuel
and contains exactly one listing response). -/
theorem sweep_stops_when_no_token
    (f : Nat → List String × Option String) (fuel : Nat)
    (h1 : (f 0).1 ≠ []) (h2 : (f 0).2 = none) :
    sweep_trace f (fuel + 1) 0 = some ([(f 0).1], [(f 0).1]) := by
  rw [sweep_trace, if_neg h1]
  simp [h2]

/-- Witness for C10: a single non-empty page with no continuation token. -/
theorem sweep_stops_when_no_token_witness :
    sweep_trace (fun _ => (["k"], (none : Option String))) 5 0
      = some ([["k"]], [["k"]]) :=
  sweep_stops_when_no_token (fun _ => (["k"], none)) 4 (by decide) rfl

/-! ## Pagination dialog state (`_show_delete_dialog`, app.py lines 650-829)

The dialog keeps `all_pages` (a list of pages, each page a list of
`[key, checked]` pairs), the index `current_page` of the displayed page and
the continuation token for the next unfetched page.  The remote listing for
fetch-more is abstracted as an oracle `g : String → List String × Option String`
mapping the stored token to the `(objects, next_token)` response. -/

/-- In-place update of the element at an index, `l[i] = f(l[i])`; the only
uses below have the index in range, matching the Python subscript writes. -/
def modify_at (f : α → α) : Nat → List α → List α
  | _, [] => []
  | 0, a :: l => f a :: l
  | n + 1, a :: l => a :: modify_at f n l

structure DialogState where
  all_pages : List (List (String × Bool))
  current_page : Nat
  continuation_token : Option String
deriving DecidableEq

/-- Dialog state right after `_show_delete_dialog` builds it
(app.py lines 664-667): one page of unchecked keys. -/
def init_dialog (initial_objects : List String) (initial_token : Option String) :
    DialogState :=
  { all_pages := [initial_objects.map (fun k => (k, false))]
    current_page := 0
    continuation_token := initial_token }

/-- Embedding of `update_check_state(index, checked)` (app.py lines 733-735): store the
checkbox state into entry `index` of the current page. -/
def update_check_state (s : DialogState) (index : Nat) (checked : Bool) :
    DialogState :=
  let pages := modify_at (fun page => modify_at (fun kc => (kc.1, checked)) index page) s.current_page s.all_pages
  { s with all_pages := pages }

/-- Embedding of `load_next_page()` (app.py lines 737-754): advance to an already
fetched page, or fetch a new page with the stored continuation token. -/
def load_next_page (g : String → List String × Option String) (s : DialogState) :
    DialogState :=
  if s.current_page + 1 < s.all_pages.length then
    { s with current_page := s.current_page + 1 }
  else
    match s.continuation_token with
    | none => s
    | some t =>
      { all_pages := s.all_pages ++ [(g t).1.map (fun k => (k, false))]
        continuation_token := (g t).2
        current_page := s.current_page + 1 }

/-- Embedding of `load_previous_page()` (app.py lines 756-760). -/
def load_previous_page (s : DialogState) : DialogState :=
  if 0 < s.current_page then { s with current_page := s.current_page - 1 } else s

/-- The key list collected by `delete_selected` (app.py lines 764-767):
`[obj_key for page in all_pages for obj_key, checked in page if checked]`. -/
def selected_keys (s : DialogState) : List String :=
  s.all_pages.flatMap (fun page => (page.filter (fun kc => kc.2)).map (fun kc => kc.1))

/-- One UI event of the delete dialog. -/
inductive DialogStep (g : String → List String × Option String) :
    DialogState → DialogState → Prop
  | check (s : DialogState) (index : Nat) (checked : Bool) :
      DialogStep g s (update_check_state s index checked)
  | next (s : DialogState) : DialogStep g s (load_next_page g s)
  | back (s : DialogState) : DialogStep g s (load_previous_page s)

/-- Dialog states reachable from some initial listing via selection and
page-navigation events. -/
inductive DialogReachable (g : String → List String × Option String) :
    DialogState → Prop
  | init (initial_objects : List String) (initial_token : Option String) :
      DialogReachable g (init_dialog initial_objects initial_token)
  | step {s s' : DialogState} :
      DialogReachable g s → DialogStep g s s' → DialogReachable g s'

/-- C3: In every reachable dialog state, the key list collected for the
final delete contains exactly the keys that carry a true selected flag on
some fetched page — the union over all fetched pages of the selected keys. -/
theorem selected_keys_eq_union_of_flagged
    (g : String → List String × Option String) (s : DialogState)
    (_hreach : DialogReachable g s) (k : String) :
    k ∈ selected_keys s ↔ ∃ page ∈ s.all_pages, (k, true) ∈ page := by
  simp only [selected_keys, List.mem_flatMap, List.mem_map, List.mem_filter]
  constructor
  · rintro ⟨page, hp, kc, ⟨hkc, hchk⟩, rfl⟩
    refine ⟨page, hp, ?_⟩
    obtain ⟨a, b⟩ := kc
    simp only at hchk
    rwa [hchk] at hkc
  · rintro ⟨page, hp, hmem⟩
    exact ⟨page, hp, (k, true), ⟨hmem, rfl⟩, rfl⟩

/-- Witness for C3: a reachable state (initial page, first key checked). -/
theorem selected_keys_eq_union_witness :
    "a" ∈ selected_keys (update_check_state (init_dialog ["a", "b"] none) 0 true)
      ↔ ∃ page ∈ (update_check_state (init_dialog ["a", "b"] none) 0 true).all_pages,
          ("a", true) ∈ page :=
  selected_keys_eq_union_of_flagged (fun _ => ([], none))
    (update_check_state (init_dialog ["a", "b"] none) 0 true)
    (DialogReachable.step (DialogReachable.init ["a", "b"] none)
      (DialogStep.check (init_dialog ["a", "b"] none) 0 true))
    "a"

/-! ## Page navigation preserves selection flags (C4) -/

/-- A page-navigation event: the "next page" or "previous page" button. -/
inductive NavOp where
  | next
  | back
deriving DecidableEq

def nav_step (g : String → List String × Option String) :
    NavOp → DialogState → DialogState
  | NavOp.next, s => load_next_page g s
  | NavOp.back, s => load_previous_page s

def nav_run (g : String → List String × Option String)
    (ops : List NavOp) (s : DialogState) : DialogState :=
  ops.foldl (fun s op => nav_step g op s) s

theorem nav_step_preserves_pages
    (g : String → List String × Option String) (op : NavOp) (s : DialogState)
    (p : Nat) (hp : p < s.all_pages.length) :
    (nav_step g op s).all_pages[p]? = s.all_pages[p]?
      ∧ s.all_pages.length ≤ (nav_step g op s).all_pages.length := by
  cases op with
  | next =>
    simp only [nav_step, load_next_page]
    by_cases hc : s.current_page + 1 < s.all_pages.length
    · rw [if_pos hc]
      exact ⟨rfl, le_refl _⟩
    · rw [if_neg hc]
      cases s.continuation_token with
      | none => exact ⟨rfl, le_refl _⟩
      | some t =>
        refine ⟨List.getElem?_append_left hp, ?_⟩
        rw [List.length_append]
        omega
  | back =>
    simp only [nav_step, load_previous_page]
    by_cases hc : 0 < s.current_page
    · rw [if_pos hc]
      exact ⟨rfl, le_refl _⟩
    · rw [if_neg hc]
      exact ⟨rfl, le_refl _⟩

theorem nav_run_preserves_pages
    (g : String → List String × Option String) (ops : List NavOp) :
    ∀ (s : DialogState) (p : Nat), p < s.all_pages.length →
      (nav_run g ops s).all_pages[p]? = s.all_pages[p]? := by
  induction ops with
  | nil => intro s p _; rfl
  | cons op ops ih =>
    intro s p hp
    obtain ⟨hget, hlen⟩ := nav_step_preserves_pages g op s p hp
    calc (nav_run g (op :: ops) s).all_pages[p]?
        = (nav_run g ops (nav_step g op s)).all_pages[p]? := rfl
      _ = (nav_step g op s).all_pages[p]? := ih _ p (by omega)
      _ = s.all_pages[p]? := hget

/-- C4: A selection flag recorded on any entry of any fetched page keeps
its value across every sequence of page-forward / page-back navigations,
including navigations that fetch new pages: the entry at position `j` of
fetched page `p` is unchanged by `nav_run`. -/
theorem nav_preserves_selection_flags
    (g : String → List String × Option String) (ops : List NavOp)
    (s : DialogState) (p j : Nat) (key : String) (b : Bool)
    (h : s.all_pages[p]?.bind (fun page => page[j]?) = some (key, b)) :
    (nav_run g ops s).all_pages[p]?.bind (fun page => page[j]?)
      = some (key, b) := by
  cases hq : s.all_pages[p]? with
  | none => rw [hq] at h; simp at h
  | some page =>
    have hp : p < s.all_pages.length := by
      by_contra hcon
      rw [List.getElem?_eq_none (by omega)] at hq
      exact Option.noConfusion hq
    rw [nav_run_preserves_pages g ops s p hp, hq]
    rw [hq] at h
    exact h

/-- Witness for C4: the flag set on key "a" survives navigating forward
(fetching a second page) and back. -/
theorem nav_preserves_selection_flags_witness :
    ((nav_run (fun _ => (["c"], none)) [NavOp.next, NavOp.back]
          (update_check_state (init_dialog ["a", "b"] (some "t")) 0 true)
        ).all_pages[0]?.bind (fun page => page[0]?)) = some ("a", true) :=
  nav_preserves_selection_flags (fun _ => (["c"], none)) [NavOp.next, NavOp.back]
    (update_check_state (init_dialog ["a", "b"] (some "t")) 0 true)
    0 0 "a" true (by decide)

/-! ## Per-key delete failures (C5)

`S3Manager.delete_objects` (app.py lines 114-124) forwards the provider
response, whose `Deleted` / `Errors` entries partition the submitted keys
into per-key successes and per-key failures.  The remote call is abstracted
as an oracle `d : List String → DeleteResult`. -/

/-- The structured content of a successful `delete_objects` response:
per-key successes and per-key failures `(key, reason)`. -/
structure DeleteResult where
  deleted : List String
  errors : List (String × String)
deriving DecidableEq

/-- Everything the selection-mode delete worker surfaces to its caller /
the user (app.py lines 886-901, non-exception path): the successive
status-label updates `削除済み: c/total` — modelled as the pairs
`(c, total)` — and the final completion message (modelled by `done`).
The response of each `delete_objects` call (line 892) is not bound to any
variable by the source, which the embedding mirrors with a discarded
`let`. -/
structure SelectionDeleteReport where
  progress : List (Nat × Nat)
  done : Bool
deriving DecidableEq

/-- The selection-mode branch of `_execute_delete.delete_thread`
(app.py lines 886-901). -/
def delete_thread_selection (d : List String → DeleteResult)
    (keys : List String) : SelectionDeleteReport :=
  let total := keys.length
  let prog := (pyRange 0 total DELETE_BATCH_SIZE).foldl
    (fun acc i =>
      let batch := pySlice keys i (i + DELETE_BATCH_SIZE)
      let _resp := d batch
      acc ++ [(min (i + DELETE_BATCH_SIZE) total, total)])
    []
  { progress := prog, done := true }

/-- The engine's surfaced result does not depend on the delete responses at
all: whatever per-key failures a call reports are dropped. -/
theorem delete_thread_selection_ignores_responses
    (d d' : List String → DeleteResult) (keys : List String) :
    delete_thread_selection d keys = delete_thread_selection d' keys := by
  rw [delete_thread_selection, delete_thread_selection]

/-- C5 fails on the code: on input `["k1"]`, a delete call whose
response reports the per-key failure `("k1", "AccessDenied")` produces
exactly the same surfaced engine result as a response with no failures:
the per-key failure is silently dropped, and the engine still reports
completion. -/
theorem per_key_failures_silently_dropped :
    (DeleteResult.mk [] [("k1", "AccessDenied")]).errors ≠ []
      ∧ delete_thread_selection (fun ks => ⟨[], ks.map (fun k => (k, "AccessDenied"))⟩) ["k1"]
          = delete_thread_selection (fun ks => ⟨ks, []⟩) ["k1"]
      ∧ (delete_thread_selection (fun ks => ⟨[], ks.map (fun k => (k, "AccessDenied"))⟩) ["k1"]).done
          = true := by
  refine ⟨by decide, ?_, ?_⟩
  · exact delete_thread_selection_ignores_responses _ _ _
  · rfl

/-! ## Upload pipeline (C6)

`_handle_upload.upload_thread` (app.py lines 508-531) uploads the chosen
files strictly sequentially; `S3Manager.upload_file` (lines 107-112) raises
an error whose message names the remote key on a failed transfer, which
aborts the remaining loop.  Success of the i-th upload attempt is
abstracted as an oracle `ok : Nat → Bool`; `keyOf` is the remote-key
computation applied to each file (basename + `_get_s3_key`). -/

/-- The upload loop starting at position `i`: returns the `(path, key)`
pairs actually uploaded, in order, and `some key` when the loop aborted
with a transfer error naming `key`. -/
def upload_loop (ok : Nat → Bool) (keyOf : String → String) :
    Nat → List String → List (String × String) × Option String
  | _, [] => ([], none)
  | i, p :: ps =>
    let key := keyOf p
    if ok i then
      let rest := upload_loop ok keyOf (i + 1) ps
      ((p, key) :: rest.1, rest.2)
    else
      ([], some key)

theorem upload_loop_spec (ok : Nat → Bool) (keyOf : String → String) :
    ∀ (paths : List String) (i k : Nat) (hk : k < paths.length),
      (∀ j, j < k → ok (i + j) = true) → ok (i + k) = false →
      upload_loop ok keyOf i paths
        = ((paths.take k).map (fun p => (p, keyOf p)),
           some (keyOf (paths.get ⟨k, hk⟩))) := by
  intro paths
  induction paths with
  | nil => intro i k hk _ _; exact absurd hk (by simp)
  | cons p ps ih =>
    intro i k hk hbefore hfail
    cases k with
    | zero =>
      rw [upload_loop]
      rw [Nat.add_zero] at hfail
      rw [hfail]
      simp
    | succ k =>
      have hok : ok i = true := by
        have := hbefore 0 (by omega)
        rwa [Nat.add_zero] at this
      rw [upload_loop, hok]
      have hk' : k < ps.length := by
        simpa using hk
      have hbefore' : ∀ j, j < k → ok (i + 1 + j) = true := by
        intro j hj
        have := hbefore (j + 1) (by omega)
        rwa [show i + (j + 1) = i + 1 + j by omega] at this
      have hfail' : ok (i + 1 + k) = false := by
        rwa [show i + 1 + k = i + (k + 1) by omega]
      rw [ih (i + 1) k hk' hbefore' hfail']
      simp

/-- C6: If the upload at position `k` (0-based) fails and every earlier
one succeeds, the pipeline uploads exactly the first `k` files (so it
reports `k` completed), performs no upload for any later file, and aborts
with a transfer error naming the `k`-th file's remote key. -/
theorem upload_aborts_at_first_failure
    (ok : Nat → Bool) (keyOf : String → String) (paths : List String)
    (k : Nat) (hk : k < paths.length)
    (hbefore : ∀ j, j < k → ok j = true) (hfail : ok k = false) :
    upload_loop ok keyOf 0 paths
        = ((paths.take k).map (fun p => (p, keyOf p)),
           some (keyOf (paths.get ⟨k, hk⟩)))
      ∧ ((paths.take k).map (fun p => (p, keyOf p))).length = k := by
  constructor
  · exact upload_loop_spec ok keyOf paths 0 k hk
      (by intro j hj; simpa using hbefore j hj)
      (by simpa using hfail)
  · simp only [List.length_map, List.length_take]
    omega

/-- Witness for C6: five files where the third upload fails — exactly the
first two are uploaded and the error names the third file's key. -/
theorem upload_aborts_witness :
    upload_loop (fun i => decide (i ≠ 2)) (fun p => "logs/" ++ p) 0
        ["f1", "f2", "f3", "f4", "f5"]
        = ([("f1", "logs/f1"), ("f2", "logs/f2")], some "logs/f3")
      ∧ ([("f1", "logs/f1"), ("f2", "logs/f2")] : List (String × String)).length = 2 := by
  have h := upload_aborts_at_first_failure (fun i => decide (i ≠ 2))
    (fun p => "logs/" ++ p) ["f1", "f2", "f3", "f4", "f5"] 2
    (by decide) (by decide) (by decide)
  simpa using h

/-! ## Concurrent-operation guard (C7)

`_handle_upload` and `_handle_directory_upload` call `_disable_buttons()`
(app.py lines 958-962) before spawning their worker thread, so the three
main action buttons reject clicks while such a worker runs.
`_handle_delete` (lines 628-648) and `_execute_delete` (lines 831-906)
never touch the button state.  The model tracks the shared button state and
the number of lifecycle workers currently in flight; a click handler runs
only when the buttons are enabled. -/

structure GuardState where
  buttons_enabled : Bool
  workers : Nat
deriving DecidableEq

/-- Clicking the upload button: `_handle_upload` disables the buttons and
starts a worker (app.py lines 495-531). -/
def click_upload (s : GuardState) : GuardState :=
  if s.buttons_enabled then { buttons_enabled := false, workers := s.workers + 1 } else s

/-- Clicking the directory-upload button: `_handle_directory_upload`
disables the buttons and starts a worker (app.py lines 533-584). -/
def click_directory_upload (s : GuardState) : GuardState :=
  if s.buttons_enabled then { buttons_enabled := false, workers := s.workers + 1 } else s

/-- Clicking the delete button and confirming: `_handle_delete` /
`_execute_delete` start `delete_thread` without disabling any main button
(app.py lines 628-648, 831-906). -/
def click_delete (s : GuardState) : GuardState :=
  if s.buttons_enabled then { s with workers := s.workers + 1 } else s

/-- Counterexample to C7: from the idle state, starting a delete
leaves the main buttons enabled, so a subsequent upload click is accepted
while the delete worker is still in flight: two lifecycle workers run at
once, and the second invocation was neither rejected nor ignored. -/
theorem second_op_during_delete_accepted :
    (click_delete ⟨true, 0⟩).workers = 1
      ∧ (click_delete ⟨true, 0⟩).buttons_enabled = true
      ∧ click_upload (click_delete ⟨true, 0⟩) ≠ click_delete ⟨true, 0⟩
      ∧ (click_upload (click_delete ⟨true, 0⟩)).workers = 2 := by
  decide

/-- C7 amended: while an upload or directory-upload worker is in
flight the action buttons are disabled, so invoking any second lifecycle
operation from them is ignored; but a delete worker leaves the buttons
enabled, so a second operation invoked during a delete starts a second
concurrent worker. -/
theorem upload_guard_only (n : Nat) :
    (click_upload ⟨true, n⟩).buttons_enabled = false
      ∧ click_upload (click_upload ⟨true, n⟩) = click_upload ⟨true, n⟩
      ∧ click_directory_upload (click_upload ⟨true, n⟩) = click_upload ⟨true, n⟩
      ∧ click_delete (click_upload ⟨true, n⟩) = click_upload ⟨true, n⟩
      ∧ (click_delete ⟨true, n⟩).buttons_enabled = true
      ∧ (click_upload (click_delete ⟨true, n⟩)).workers = n + 2 := by
  simp [click_upload, click_directory_upload, click_delete]

/-! ## Remote key computation (C8)

`_get_s3_key` (app.py lines 949-956) and `_get_s3_key_for_directory`
(lines 609-624) build the remote key from the stripped contents of the
prefix entry (`prefix_var.get().strip()`) and the file / relative name;
the functions below take that stripped prefix as their first argument. -/

/-- Python `s.endswith('/')`: for the one-character suffix this is exactly
"the last character is `/`". -/
def ends_with_slash (s : String) : Bool :=
  s.data.getLast? == some '/'

/-- Embedding of `_get_s3_key(filename)` (app.py lines 949-956), with the stripped
prefix-entry contents as explicit first argument. -/
def get_s3_key (pfx filename : String) : String :=
  if pfx ≠ "" then
    (if ends_with_slash pfx then pfx else pfx ++ "/") ++ filename
  else filename

/-- Embedding of `_get_s3_key_for_directory(relative_path)` (app.py lines 609-624):
the same computation applied to the walker's relative path. -/
def get_s3_key_for_directory (pfx relative_path : String) : String :=
  if pfx ≠ "" then
    (if ends_with_slash pfx then pfx else pfx ++ "/") ++ relative_path
  else relative_path

/-- C8: Remote key computation: a non-empty prefix not ending in `/`
yields `prefix + "/" + filename`, a prefix ending in `/` yields
`prefix + filename`, an empty prefix yields the filename unchanged; both
key builders agree; and the three concrete examples hold. -/
theorem remote_key_computation (pfx filename : String) :
    (pfx ≠ "" → ends_with_slash pfx = false →
        get_s3_key pfx filename = pfx ++ "/" ++ filename)
      ∧ (ends_with_slash pfx = true → get_s3_key pfx filename = pfx ++ filename)
      ∧ get_s3_key "" filename = filename
      ∧ get_s3_key_for_directory pfx filename = get_s3_key pfx filename
      ∧ get_s3_key "logs" "x.log" = "logs/x.log"
      ∧ get_s3_key "logs/" "x.log" = "logs/x.log"
      ∧ get_s3_key "" "x.log" = "x.log" := by
  refine ⟨?_, ?_, ?_, ?_, by decide, by decide, by decide⟩
  · intro hne hslash
    rw [get_s3_key, if_pos hne, hslash]
    simp [String.append_assoc]
  · intro hslash
    have hne : pfx ≠ "" := by
      intro hcon
      rw [hcon] at hslash
      exact absurd hslash (by decide)
    rw [get_s3_key, if_pos hne, hslash]
    simp
  · rfl
  · rw [get_s3_key, get_s3_key_for_directory]

/-- Witness for C8 at prefix "logs", filename "x.log". -/
theorem remote_key_computation_witness :
    ("logs" ≠ "" → ends_with_slash "logs" = false →
        get_s3_key "logs" "x.log" = "logs" ++ "/" ++ "x.log")
      ∧ (ends_with_slash "logs" = true → get_s3_key "logs" "x.log" = "logs" ++ "x.log")
      ∧ get_s3_key "" "x.log" = "x.log"
      ∧ get_s3_key_for_directory "logs" "x.log" = get_s3_key "logs" "x.log"
      ∧ get_s3_key "logs" "x.log" = "logs/x.log"
      ∧ get_s3_key "logs/" "x.log" = "logs/x.log"
      ∧ get_s3_key "" "x.log" = "x.log" :=
  remote_key_computation "logs" "x.log"

/-! ## Directory walker (C9)

`_scan_directory` (app.py lines 586-607) walks a local directory tree with
`os.walk` and produces, for every file, the pair
`(absolute path, relative path with separators normalized to '/')`.
A directory is modelled as its file names plus named subdirectories; the
platform path separator `sep` (used by `os.path.join` / `os.path.relpath`)
is a parameter, and `os.walk`'s unspecified listing order shows up as the
order of the `files` / `subdirs` lists. -/

inductive FSTree where
  | node (files : List String) (subdirs : List (String × FSTree))

/-- Join path components with the platform separator. -/
def sep_join (sep : Char) : List String → String
  | [] => ""
  | [p] => p
  | p :: q :: rest => p ++ String.singleton sep ++ sep_join sep (q :: rest)

/-- Python `relative_path.replace('\\', '/')` (app.py line 604): for the
one-character pattern this is a character map. -/
def normalize_slashes (s : String) : String :=
  String.mk (s.data.map (fun c => if c = '\\' then '/' else c))

mutual

/-- Top-down `os.walk` over one directory: the directory's own files first
(absolute path joined with `sep`, relative path relative to the scan root,
backslashes normalized), then the subdirectories in listing order. -/
def walk_tree (sep : Char) (root_path : String) (rel_dir : List String) :
    FSTree → List (String × String)
  | FSTree.node files subdirs =>
    files.map (fun f =>
      (sep_join sep (root_path :: (rel_dir ++ [f])),
       normalize_slashes (sep_join sep (rel_dir ++ [f]))))
      ++ walk_dirs sep root_path rel_dir subdirs

def walk_dirs (sep : Char) (root_path : String) (rel_dir : List String) :
    List (String × FSTree) → List (String × String)
  | [] => []
  | (name, sub) :: rest =>
    walk_tree sep root_path (rel_dir ++ [name]) sub
      ++ walk_dirs sep root_path rel_dir rest

end

/-- Embedding of `_scan_directory(directory_path)` (app.py lines 586-607). -/
def scan_directory (sep : Char) (directory_path : String) (t : FSTree) :
    List (String × String) :=
  walk_tree sep directory_path [] t

/-- C9: On a tree with files `a/b.txt` and `a/c/d.txt` scanned from
root `a` — in whatever order the directory listing presents the entries —
the walker yields exactly the relative paths `b.txt` and `c/d.txt`, paired
with their absolute local paths, with the platform separator (`/` as well
as `\`) normalized to `/` in the relative paths. -/
theorem directory_walker_two_file_tree
    (fs1 fs2 : List String) (sds : List (String × FSTree))
    (h1 : fs1.Perm ["b.txt"]) (h2 : fs2.Perm ["d.txt"])
    (h3 : sds.Perm [("c", FSTree.node fs2 [])]) :
    (scan_directory '/' "a" (FSTree.node fs1 sds)).Perm
        [("a/b.txt", "b.txt"), ("a/c/d.txt", "c/d.txt")]
      ∧ (scan_directory '\\' "a" (FSTree.node fs1 sds)).Perm
        [("a\\b.txt", "b.txt"), ("a\\c\\d.txt", "c/d.txt")] := by
  rw [List.perm_singleton] at h1 h2 h3
  subst h1 h2 h3
  exact ⟨by decide, by decide⟩

/-- Witness for C9 with the listing orders as given. -/
theorem directory_walker_two_file_tree_witness :
    (scan_directory '/' "a"
        (FSTree.node ["b.txt"] [("c", FSTree.node ["d.txt"] [])])).Perm
        [("a/b.txt", "b.txt"), ("a/c/d.txt", "c/d.txt")]
      ∧ (scan_directory '\\' "a"
        (FSTree.node ["b.txt"] [("c", FSTree.node ["d.txt"] [])])).Perm
        [("a\\b.txt", "b.txt"), ("a\\c\\d.txt", "c/d.txt")] :=
  directory_walker_two_file_tree ["b.txt"] ["d.txt"] [("c", FSTree.node ["d.txt"] [])]
    (List.Perm.refl _) (List.Perm.refl _) (List.Perm.refl _)

end S3App
